import Mathlib

/-!
# Verification of the hyperlydian runtime core

A shallow embedding of the parts of the hyperlydian arcade-shooter runtime
that the specification talks about, together with proofs of the spec's
testable properties.  Each section embeds one source module:

* `src/game/sprites/groups.py`  — the row-based `StraferGruntGroup`;
* `src/game/sprites/player.py`  — the player/enemy collision resolver;
* `src/game/menus/loading.py`   — the loading-screen handshake;
* `src/game/sprites/projectiles.py` — projectile construction and update;
* `src/game/stats.py`           — the `AvgStat` telemetry accumulator;
* the `Weapon` firing-cadence gate (its source file `attacks.py` is not part
  of the provided sources, so it is modelled from the spec, see below).

Machine integers are modelled as `Int`/`Nat` (Python integers are unbounded,
so no wraparound is modelled); `float` geometry is modelled exactly over
`ℚ`/`ℝ` (IEEE rounding of on-screen coordinates is ignored).
-/

/-! ## Row-based strafer grunt group (`src/game/sprites/groups.py`) -/

/-- Constants from `StraferGruntGroup`: `ROW_START = 150`. -/
def ROW_START : ℚ := 150

/-- Constants from `StraferGruntGroup`: `ROW_SPACING = 1.25`. -/
def ROW_SPACING : ℚ := 1.25

/-- `SCREEN_HEIGHT = 900` from `src/game/defs.py`, as a rational for the
vertical-position arithmetic of `create_new_grunt`. -/
def SCREEN_HEIGHT : ℚ := 900

/-- The placement data of one strafer grunt: the row index it was assigned,
its spawn direction (`1` when the player was in the bottom half, else `-1`)
and the vertical stopping position computed at creation time. -/
structure StraferGrunt where
  gruntRow : Nat
  spawnDirection : Int
  stoppingPointY : ℚ
  deriving DecidableEq

/-- The row bookkeeping of `StraferGruntGroup`: two independent row sets
(`top_grunts_per_row` / `bottom_grunts_per_row`, counts are Python ints) plus
the "next row to fill" pointer of each set. -/
structure StraferGruntGroup where
  maxRows : Nat
  maxGruntsPerRow : Int
  topGruntsPerRow : List Int
  bottomGruntsPerRow : List Int
  topRowToFill : Nat
  bottomRowToFill : Nat
  deriving DecidableEq

/-- `StraferGruntGroup.__init__`: row-count lists of length `max_rows`
filled with `0`, both fill pointers at `0`. -/
def StraferGruntGroup.init (maxRows : Nat) (maxGruntsPerRow : Int) :
    StraferGruntGroup :=
  { maxRows := maxRows
    maxGruntsPerRow := maxGruntsPerRow
    topGruntsPerRow := List.replicate maxRows 0
    bottomGruntsPerRow := List.replicate maxRows 0
    topRowToFill := 0
    bottomRowToFill := 0 }

/-- `rows[i] = f rows[i]`, an in-place item update on a Python list.  (Out of
range indices never occur on the states reachable by the group's own
operations; see `Reachable`.) -/
def modifyAt (f : Int → Int) : List Int → Nat → List Int
  | [], _ => []
  | x :: xs, 0 => f x :: xs
  | x :: xs, n + 1 => x :: modifyAt f xs n

/-- Total number of grunts tracked by the row counts:
`sum(self.top_grunts_per_row) + sum(self.bottom_grunts_per_row)`. -/
def StraferGruntGroup.totalGrunts (s : StraferGruntGroup) : Int :=
  s.topGruntsPerRow.sum + s.bottomGruntsPerRow.sum

/-- `StraferGruntGroup.is_full`:
`total_grunts >= self.max_grunts_per_row * self.max_rows`. -/
def StraferGruntGroup.is_full (s : StraferGruntGroup) : Bool :=
  s.maxGruntsPerRow * (s.maxRows : Int) ≤ s.totalGrunts

/-- The `for row, num_grunts in enumerate(...): if num_grunts < max: ...; break`
scan of `update_curr_row`: index of the first row whose count is below
`max_grunts_per_row`, or `none` when every row is at or above capacity. -/
def rowScan (maxGruntsPerRow : Int) : List Int → Option Nat
  | [] => none
  | c :: rest =>
      if c < maxGruntsPerRow then some 0
      else (rowScan maxGruntsPerRow rest).map (· + 1)

/-- `StraferGruntGroup.update_curr_row`: recompute each fill pointer as the
lowest-indexed row below capacity, leaving it unchanged when the scan finds
no such row. -/
def StraferGruntGroup.update_curr_row (s : StraferGruntGroup) :
    StraferGruntGroup :=
  { s with
    topRowToFill :=
      (rowScan s.maxGruntsPerRow s.topGruntsPerRow).getD s.topRowToFill
    bottomRowToFill :=
      (rowScan s.maxGruntsPerRow s.bottomGruntsPerRow).getD s.bottomRowToFill }

/-- `StraferGruntGroup.add` for a single grunt: increment the row count at the
current fill pointer of the set picked by the player's vertical half
(`playerBottom` is `player__vertical_half.text == 'bottom'`). -/
def StraferGruntGroup.add (s : StraferGruntGroup) (playerBottom : Bool) :
    StraferGruntGroup :=
  if playerBottom then
    { s with topGruntsPerRow := modifyAt (· + 1) s.topGruntsPerRow s.topRowToFill }
  else
    { s with bottomGruntsPerRow := modifyAt (· + 1) s.bottomGruntsPerRow s.bottomRowToFill }

/-- `StraferGruntGroup.create_new_grunt`: pick the row and spawn direction
from the player's vertical half, compute the vertical stop position
`ROW_START + row * height * ROW_SPACING` (mirrored to
`SCREEN_HEIGHT - position` when the player is in the top half), then run
`add` followed by `update_curr_row`.  `gruntHeight` is `grunt.rect.height`. -/
def StraferGruntGroup.create_new_grunt (s : StraferGruntGroup)
    (playerBottom : Bool) (gruntHeight : ℚ) :
    StraferGruntGroup × StraferGrunt :=
  let gruntRow := if playerBottom then s.topRowToFill else s.bottomRowToFill
  let spawnDirection : Int := if playerBottom then 1 else -1
  let basePosition := ROW_START + (gruntRow : ℚ) * gruntHeight * ROW_SPACING
  let gruntYPosition := if playerBottom then basePosition else SCREEN_HEIGHT - basePosition
  ((s.add playerBottom).update_curr_row,
   { gruntRow := gruntRow
     spawnDirection := spawnDirection
     stoppingPointY := gruntYPosition })

/-- `StraferGruntGroup.remove_internal`: decrement the removed grunt's row
count in the set selected by its spawn direction, then `update_curr_row`. -/
def StraferGruntGroup.remove_internal (s : StraferGruntGroup)
    (g : StraferGrunt) : StraferGruntGroup :=
  let s' :=
    if g.spawnDirection = 1 then
      { s with topGruntsPerRow := modifyAt (· - 1) s.topGruntsPerRow g.gruntRow }
    else
      { s with bottomGruntsPerRow := modifyAt (· - 1) s.bottomGruntsPerRow g.gruntRow }
  s'.update_curr_row

/-- Row count recorded for a grunt's slot: the entry of the row set selected
by its spawn direction at its row index. -/
def StraferGruntGroup.countAt (s : StraferGruntGroup) (g : StraferGrunt) : Int :=
  if g.spawnDirection = 1 then s.topGruntsPerRow.getD g.gruntRow 0
  else s.bottomGruntsPerRow.getD g.gruntRow 0

/-- The states a `StraferGruntGroup` can reach by legal sequences of
add/remove operations: grunts are created only when the group is not full
(the spec's failure policy makes spawning into a full group a caller error,
and the game loop checks `is_full` first), and only members that were
actually added are removed (so the removed grunt's row count is positive). -/
inductive Reachable (maxRows : Nat) (maxGruntsPerRow : Int) :
    StraferGruntGroup → Prop where
  | init : Reachable maxRows maxGruntsPerRow
      (StraferGruntGroup.init maxRows maxGruntsPerRow)
  | create {s : StraferGruntGroup} (playerBottom : Bool) (gruntHeight : ℚ) :
      Reachable maxRows maxGruntsPerRow s → s.is_full = false →
      Reachable maxRows maxGruntsPerRow
        (s.create_new_grunt playerBottom gruntHeight).1
  | remove {s : StraferGruntGroup} (g : StraferGrunt) :
      Reachable maxRows maxGruntsPerRow s → 0 < s.countAt g →
      Reachable maxRows maxGruntsPerRow (s.remove_internal g)

/-! ### Basic lemmas about the row bookkeeping -/

theorem length_modifyAt (f : Int → Int) (l : List Int) (i : Nat) :
    (modifyAt f l i).length = l.length := by
  induction l generalizing i with
  | nil => rfl
  | cons x xs ih =>
      cases i with
      | zero => rfl
      | succ n => simp [modifyAt, ih]

theorem getD_modifyAt_self (f : Int → Int) (l : List Int) (i : Nat)
    (h : i < l.length) : (modifyAt f l i).getD i 0 = f (l.getD i 0) := by
  induction l generalizing i with
  | nil => simp at h
  | cons x xs ih =>
      cases i with
      | zero => rfl
      | succ n =>
          simp only [modifyAt, List.getD_cons_succ]
          exact ih n (by simpa using h)

theorem sum_modifyAt (f : Int → Int) (l : List Int) (i : Nat)
    (h : i < l.length) :
    (modifyAt f l i).sum = l.sum - l.getD i 0 + f (l.getD i 0) := by
  induction l generalizing i with
  | nil => simp at h
  | cons x xs ih =>
      cases i with
      | zero => simp [modifyAt]; ring
      | succ n =>
          have hn : n < xs.length := by simpa using h
          simp only [modifyAt, List.sum_cons, List.getD_cons_succ, ih n hn]
          ring

theorem getD_pos_lt_length (l : List Int) (i : Nat) (h : 0 < l.getD i 0) :
    i < l.length := by
  by_contra hcon
  rw [List.getD_eq_default] at h
  · exact lt_irrefl 0 h
  · omega

theorem rowScan_lt_length {m : Int} {l : List Int} {i : Nat}
    (h : rowScan m l = some i) : i < l.length := by
  induction l generalizing i with
  | nil => simp [rowScan] at h
  | cons c rest ih =>
      simp only [rowScan] at h
      by_cases hc : c < m
      · rw [if_pos hc] at h
        simp only [Option.some.injEq] at h
        simp [← h]
      · rw [if_neg hc] at h
        rcases hr : rowScan m rest with _ | j
        · rw [hr] at h
          simp at h
        · rw [hr] at h
          simp only [Option.map_some', Option.some.injEq] at h
          have := ih hr
          simp only [List.length_cons]
          omega

theorem rowScan_none_iff {m : Int} {l : List Int} :
    rowScan m l = none ↔ ∀ c ∈ l, m ≤ c := by
  induction l with
  | nil => simp [rowScan]
  | cons c rest ih =>
      simp only [rowScan, List.mem_cons]
      by_cases hc : c < m
      · rw [if_pos hc]
        constructor
        · intro h
          simp at h
        · intro h
          have := h c (Or.inl rfl)
          omega
      · rw [if_neg hc]
        rcases hr : rowScan m rest with _ | j
        · simp only [Option.map_none']
          constructor
          · intro _ x hx
            rcases hx with rfl | hx
            · omega
            · exact (ih.mp hr) x hx
          · intro _
            trivial
        · simp only [Option.map_some']
          constructor
          · intro h
            simp at h
          · intro h
            have : rowScan m rest = none :=
              ih.mpr (fun x hx => h x (Or.inr hx))
            rw [this] at hr
            simp at hr

theorem rowScan_getD {m : Int} {l : List Int} {i : Nat}
    (h : rowScan m l = some i) : l.getD i 0 < m := by
  induction l generalizing i with
  | nil => simp [rowScan] at h
  | cons c rest ih =>
      simp only [rowScan] at h
      by_cases hc : c < m
      · rw [if_pos hc] at h
        simp only [Option.some.injEq] at h
        simpa [← h] using hc
      · rw [if_neg hc] at h
        rcases hr : rowScan m rest with _ | j
        · rw [hr] at h
          simp at h
        · rw [hr] at h
          simp only [Option.map_some', Option.some.injEq] at h
          rw [← h]
          simpa [List.getD_cons_succ] using ih hr

theorem rowScan_least {m : Int} {l : List Int} {i : Nat}
    (h : rowScan m l = some i) : ∀ j, j < i → m ≤ l.getD j 0 := by
  induction l generalizing i with
  | nil => simp [rowScan] at h
  | cons c rest ih =>
      simp only [rowScan] at h
      by_cases hc : c < m
      · rw [if_pos hc] at h
        simp only [Option.some.injEq] at h
        intro j hj
        omega
      · rw [if_neg hc] at h
        rcases hr : rowScan m rest with _ | j'
        · rw [hr] at h
          simp at h
        · rw [hr] at h
          simp only [Option.map_some', Option.some.injEq] at h
          intro j hj
          cases j with
          | zero => simpa using hc
          | succ k =>
              simp only [List.getD_cons_succ]
              exact ih hr k (by omega)

/-! ### The reachable-state invariant of the grunt group -/

/-- Invariant maintained by every legal add/remove sequence: the row-count
lists keep their constructor length, the fill pointers stay in range, and
the total member count never exceeds the configured capacity. -/
def GruntInv (maxRows : Nat) (maxGruntsPerRow : Int)
    (s : StraferGruntGroup) : Prop :=
  s.maxRows = maxRows ∧ s.maxGruntsPerRow = maxGruntsPerRow ∧
  s.topGruntsPerRow.length = maxRows ∧
  s.bottomGruntsPerRow.length = maxRows ∧
  s.topRowToFill < maxRows ∧ s.bottomRowToFill < maxRows ∧
  s.totalGrunts ≤ maxGruntsPerRow * (maxRows : Int)

theorem update_curr_row_inv {maxRows : Nat} {maxGruntsPerRow : Int}
    {s : StraferGruntGroup} (h : GruntInv maxRows maxGruntsPerRow s) :
    GruntInv maxRows maxGruntsPerRow s.update_curr_row := by
  obtain ⟨h1, h2, h3, h4, h5, h6, h7⟩ := h
  refine ⟨h1, h2, h3, h4, ?_, ?_, h7⟩
  · rcases hscan : rowScan s.maxGruntsPerRow s.topGruntsPerRow with _ | i
    · simpa [StraferGruntGroup.update_curr_row, hscan] using h5
    · have := rowScan_lt_length hscan
      simp only [StraferGruntGroup.update_curr_row, hscan, Option.getD_some]
      omega
  · rcases hscan : rowScan s.maxGruntsPerRow s.bottomGruntsPerRow with _ | i
    · simpa [StraferGruntGroup.update_curr_row, hscan] using h6
    · have := rowScan_lt_length hscan
      simp only [StraferGruntGroup.update_curr_row, hscan, Option.getD_some]
      omega

theorem getD_mem_of_lt (l : List Int) (i : Nat) (h : i < l.length) :
    l.getD i 0 ∈ l := by
  induction l generalizing i with
  | nil => simp at h
  | cons x xs ih =>
      cases i with
      | zero => simp
      | succ n =>
          simp only [List.getD_cons_succ, List.mem_cons]
          exact Or.inr (ih n (by simpa using h))

theorem add_inv {maxRows : Nat} {maxGruntsPerRow : Int} {s : StraferGruntGroup}
    (pb : Bool) (h : GruntInv maxRows maxGruntsPerRow s)
    (hfull : s.is_full = false) :
    GruntInv maxRows maxGruntsPerRow (s.add pb) := by
  obtain ⟨h1, h2, h3, h4, h5, h6, h7⟩ := h
  have hfull' : ¬ (maxGruntsPerRow * (maxRows : Int) ≤ s.totalGrunts) := by
    simpa [StraferGruntGroup.is_full, h1, h2] using hfull
  have hlt : s.totalGrunts < maxGruntsPerRow * (maxRows : Int) :=
    lt_of_not_le hfull'
  cases pb with
  | true =>
      have hidx : s.topRowToFill < s.topGruntsPerRow.length := by omega
      have hadd : s.add true =
          { s with topGruntsPerRow :=
              modifyAt (· + 1) s.topGruntsPerRow s.topRowToFill } := by
        simp [StraferGruntGroup.add]
      rw [hadd]
      refine ⟨h1, h2, ?_, h4, h5, h6, ?_⟩
      · simpa [length_modifyAt] using h3
      · have hsum : (modifyAt (· + 1) s.topGruntsPerRow s.topRowToFill).sum =
            s.topGruntsPerRow.sum + 1 := by
          rw [sum_modifyAt _ _ _ hidx]
          ring
        simp only [StraferGruntGroup.totalGrunts] at hlt ⊢
        have hlt1 := Int.add_one_le_iff.mpr hlt
        rw [hsum]
        linarith
  | false =>
      have hidx : s.bottomRowToFill < s.bottomGruntsPerRow.length := by omega
      have hadd : s.add false =
          { s with bottomGruntsPerRow :=
              modifyAt (· + 1) s.bottomGruntsPerRow s.bottomRowToFill } := by
        simp [StraferGruntGroup.add]
      rw [hadd]
      refine ⟨h1, h2, h3, ?_, h5, h6, ?_⟩
      · simpa [length_modifyAt] using h4
      · have hsum : (modifyAt (· + 1) s.bottomGruntsPerRow s.bottomRowToFill).sum =
            s.bottomGruntsPerRow.sum + 1 := by
          rw [sum_modifyAt _ _ _ hidx]
          ring
        simp only [StraferGruntGroup.totalGrunts] at hlt ⊢
        have hlt1 := Int.add_one_le_iff.mpr hlt
        rw [hsum]
        linarith

theorem remove_dec_inv {maxRows : Nat} {maxGruntsPerRow : Int}
    {s : StraferGruntGroup} (g : StraferGrunt)
    (h : GruntInv maxRows maxGruntsPerRow s) (hc : 0 < s.countAt g) :
    GruntInv maxRows maxGruntsPerRow
      (if g.spawnDirection = 1 then
        { s with topGruntsPerRow := modifyAt (· - 1) s.topGruntsPerRow g.gruntRow }
      else
        { s with bottomGruntsPerRow := modifyAt (· - 1) s.bottomGruntsPerRow g.gruntRow }) := by
  obtain ⟨h1, h2, h3, h4, h5, h6, h7⟩ := h
  by_cases hdir : g.spawnDirection = 1
  · have hidx : g.gruntRow < s.topGruntsPerRow.length := by
      apply getD_pos_lt_length
      simpa [StraferGruntGroup.countAt, hdir] using hc
    rw [if_pos hdir]
    refine ⟨h1, h2, by simpa [length_modifyAt] using h3, h4, h5, h6, ?_⟩
    have hsum : (modifyAt (· - 1) s.topGruntsPerRow g.gruntRow).sum =
        s.topGruntsPerRow.sum - 1 := by
      rw [sum_modifyAt _ _ _ hidx]
      ring
    simp only [StraferGruntGroup.totalGrunts] at h7 ⊢
    rw [hsum]
    linarith
  · have hidx : g.gruntRow < s.bottomGruntsPerRow.length := by
      apply getD_pos_lt_length
      simpa [StraferGruntGroup.countAt, hdir] using hc
    rw [if_neg hdir]
    refine ⟨h1, h2, h3, by simpa [length_modifyAt] using h4, h5, h6, ?_⟩
    have hsum : (modifyAt (· - 1) s.bottomGruntsPerRow g.gruntRow).sum =
        s.bottomGruntsPerRow.sum - 1 := by
      rw [sum_modifyAt _ _ _ hidx]
      ring
    simp only [StraferGruntGroup.totalGrunts] at h7 ⊢
    rw [hsum]
    linarith

theorem grunt_reachable_inv {maxRows : Nat} {maxGruntsPerRow : Int}
    (hmr : 0 < maxRows) (hmpr : 0 ≤ maxGruntsPerRow) {s : StraferGruntGroup}
    (h : Reachable maxRows maxGruntsPerRow s) :
    GruntInv maxRows maxGruntsPerRow s := by
  induction h with
  | init =>
      refine ⟨rfl, rfl, by simp [StraferGruntGroup.init],
        by simp [StraferGruntGroup.init], hmr, hmr, ?_⟩
      simp only [StraferGruntGroup.totalGrunts, StraferGruntGroup.init,
        List.sum_replicate, smul_zero, add_zero]
      positivity
  | create pb hgt _ hfull ih =>
      exact update_curr_row_inv (add_inv pb ih hfull)
  | remove g _ hc ih =>
      exact update_curr_row_inv (remove_dec_inv g ih hc)

theorem mem_exists_getD (l : List Int) (c : Int) (h : c ∈ l) :
    ∃ j, j < l.length ∧ l.getD j 0 = c := by
  induction l with
  | nil => simp at h
  | cons x xs ih =>
      rcases List.mem_cons.mp h with rfl | h'
      · exact ⟨0, by simp, rfl⟩
      · obtain ⟨j, hj, hc⟩ := ih h'
        exact ⟨j + 1, by simpa using hj, by simpa using hc⟩

theorem rowScan_getD_spec (m : Int) (l : List Int) (old : Nat) :
    ((∃ j, j < l.length ∧ l.getD j 0 < m) →
      IsLeast {j | j < l.length ∧ l.getD j 0 < m} ((rowScan m l).getD old)) ∧
    ((∀ j, j < l.length → m ≤ l.getD j 0) → (rowScan m l).getD old = old) := by
  constructor
  · rintro ⟨j, hj, hjm⟩
    rcases hscan : rowScan m l with _ | i
    · exfalso
      have hall := rowScan_none_iff.mp hscan
      exact absurd hjm (not_lt.mpr (hall _ (getD_mem_of_lt l j hj)))
    · simp only [Option.getD_some]
      constructor
      · exact ⟨rowScan_lt_length hscan, rowScan_getD hscan⟩
      · intro b hb
        by_contra hlt
        push_neg at hlt
        exact absurd hb.2 (not_lt.mpr (rowScan_least hscan b hlt))
  · intro hall
    have hnone : rowScan m l = none := by
      rw [rowScan_none_iff]
      intro c hc
      obtain ⟨j, hj, rfl⟩ := mem_exists_getD l c hc
      exact hall j hj
    rw [hnone]
    rfl

theorem remove_internal_unfold (s : StraferGruntGroup) (g : StraferGrunt) :
    (s.remove_internal g).maxGruntsPerRow = s.maxGruntsPerRow ∧
    (s.remove_internal g).topRowToFill =
      (rowScan s.maxGruntsPerRow (s.remove_internal g).topGruntsPerRow).getD
        s.topRowToFill ∧
    (s.remove_internal g).bottomRowToFill =
      (rowScan s.maxGruntsPerRow (s.remove_internal g).bottomGruntsPerRow).getD
        s.bottomRowToFill := by
  by_cases hdir : g.spawnDirection = 1 <;>
    simp [StraferGruntGroup.remove_internal, StraferGruntGroup.update_curr_row, hdir]

/-! ### Claim theorems about the strafer grunt group -/

/-- **C1**: for every legal sequence of add/remove operations on the
row-based `StraferGruntGroup`, the sum of all row counts (top rows plus
bottom rows) never exceeds `max_grunts_per_row * max_rows`, and `is_full`
returns `true` exactly when that sum equals this capacity. -/
theorem strafer_group_capacity_invariant {maxRows : Nat} {maxGruntsPerRow : Int}
    (hmr : 0 < maxRows) (hmpr : 0 ≤ maxGruntsPerRow) {s : StraferGruntGroup}
    (h : Reachable maxRows maxGruntsPerRow s) :
    s.totalGrunts ≤ maxGruntsPerRow * (maxRows : Int) ∧
    (s.is_full = true ↔ s.totalGrunts = maxGruntsPerRow * (maxRows : Int)) := by
  obtain ⟨h1, h2, _, _, _, _, h7⟩ := grunt_reachable_inv hmr hmpr h
  refine ⟨h7, ?_⟩
  simp only [StraferGruntGroup.is_full, h1, h2, decide_eq_true_eq]
  constructor
  · intro hle
    exact le_antisymm h7 hle
  · intro heq
    exact le_of_eq heq.symm

/-- Witness for **C1**: the invariant evaluated on the concrete group of the
game (`MAX_ROWS = 2`, `MAX_GRUNTS_PER_ROW = 3`) after one legal creation. -/
theorem strafer_group_capacity_invariant_witness :
    ((StraferGruntGroup.init 2 3).create_new_grunt true 64).1.totalGrunts ≤
      3 * (2 : Int) ∧
    (((StraferGruntGroup.init 2 3).create_new_grunt true 64).1.is_full = true ↔
      ((StraferGruntGroup.init 2 3).create_new_grunt true 64).1.totalGrunts =
        3 * (2 : Int)) :=
  strafer_group_capacity_invariant (by decide) (by decide)
    (Reachable.create true 64 Reachable.init (by decide))

/-- **C5**: after `remove_internal` decrements the removed member's row
count, the "next row to fill" pointer of each row set is the lowest-indexed
row whose count is below `max_grunts_per_row`, and is left unchanged when
every row of that set is at or above capacity. -/
theorem strafer_remove_recomputes_next_row (s : StraferGruntGroup)
    (g : StraferGrunt) :
    ((∃ j, j < (s.remove_internal g).topGruntsPerRow.length ∧
        (s.remove_internal g).topGruntsPerRow.getD j 0 < s.maxGruntsPerRow) →
      IsLeast {j | j < (s.remove_internal g).topGruntsPerRow.length ∧
          (s.remove_internal g).topGruntsPerRow.getD j 0 < s.maxGruntsPerRow}
        (s.remove_internal g).topRowToFill) ∧
    ((∀ j, j < (s.remove_internal g).topGruntsPerRow.length →
        s.maxGruntsPerRow ≤ (s.remove_internal g).topGruntsPerRow.getD j 0) →
      (s.remove_internal g).topRowToFill = s.topRowToFill) ∧
    ((∃ j, j < (s.remove_internal g).bottomGruntsPerRow.length ∧
        (s.remove_internal g).bottomGruntsPerRow.getD j 0 < s.maxGruntsPerRow) →
      IsLeast {j | j < (s.remove_internal g).bottomGruntsPerRow.length ∧
          (s.remove_internal g).bottomGruntsPerRow.getD j 0 < s.maxGruntsPerRow}
        (s.remove_internal g).bottomRowToFill) ∧
    ((∀ j, j < (s.remove_internal g).bottomGruntsPerRow.length →
        s.maxGruntsPerRow ≤ (s.remove_internal g).bottomGruntsPerRow.getD j 0) →
      (s.remove_internal g).bottomRowToFill = s.bottomRowToFill) := by
  obtain ⟨hm, ht, hb⟩ := remove_internal_unfold s g
  rw [ht, hb]
  exact ⟨(rowScan_getD_spec _ _ _).1, (rowScan_getD_spec _ _ _).2,
    (rowScan_getD_spec _ _ _).1, (rowScan_getD_spec _ _ _).2⟩

/-- Witness for **C5**: removing a grunt from top row 0 of the state with
top counts `[3, 1]` and saturated bottom counts `[3, 3]` moves the top fill
pointer back to row 0 and leaves the bottom fill pointer unchanged. -/
theorem strafer_remove_recomputes_next_row_witness :
    (StraferGruntGroup.remove_internal ⟨2, 3, [3, 1], [3, 3], 1, 1⟩
      ⟨0, 1, 150⟩).topRowToFill = 0 ∧
    (StraferGruntGroup.remove_internal ⟨2, 3, [3, 1], [3, 3], 1, 1⟩
      ⟨0, 1, 150⟩).bottomRowToFill = 1 := by
  have h := strafer_remove_recomputes_next_row ⟨2, 3, [3, 1], [3, 3], 1, 1⟩
    ⟨0, 1, 150⟩
  constructor
  · have hL := h.1 ⟨0, by decide, by decide⟩
    have h0 : (0 : Nat) ∈ {j |
        j < (StraferGruntGroup.remove_internal ⟨2, 3, [3, 1], [3, 3], 1, 1⟩
          ⟨0, 1, 150⟩).topGruntsPerRow.length ∧
        (StraferGruntGroup.remove_internal ⟨2, 3, [3, 1], [3, 3], 1, 1⟩
          ⟨0, 1, 150⟩).topGruntsPerRow.getD 0 0 <
          (⟨2, 3, [3, 1], [3, 3], 1, 1⟩ : StraferGruntGroup).maxGruntsPerRow} := by
      exact ⟨by decide, by decide⟩
    have := hL.2 h0
    omega
  · refine h.2.2.2 ?_
    intro j hj
    have hlen : (StraferGruntGroup.remove_internal ⟨2, 3, [3, 1], [3, 3], 1, 1⟩
        ⟨0, 1, 150⟩).bottomGruntsPerRow = [3, 3] := by decide
    rw [hlen] at hj ⊢
    simp only [List.length_cons, List.length_nil] at hj
    interval_cases j <;> decide

/-- **C4** (amended): every grunt created by `create_new_grunt` gets row
index `top_row_to_fill` (resp. `bottom_row_to_fill`), travel direction `+1`
when the player is in the bottom half and `-1` otherwise, and vertical spawn
offset `ROW_START + row * height * ROW_SPACING`, mirrored to
`SCREEN_HEIGHT - offset` exactly when the player is in the top half — that
is, when the spawn targets the *bottom* half of the screen (spawns appear on
the half opposite the player). -/
theorem strafer_spawn_position_direction (s : StraferGruntGroup)
    (playerBottom : Bool) (gruntHeight : ℚ) :
    (s.create_new_grunt playerBottom gruntHeight).2.gruntRow =
      (if playerBottom then s.topRowToFill else s.bottomRowToFill) ∧
    (s.create_new_grunt playerBottom gruntHeight).2.spawnDirection =
      (if playerBottom then 1 else -1) ∧
    (s.create_new_grunt playerBottom gruntHeight).2.stoppingPointY =
      (if playerBottom then
        ROW_START +
          ((s.create_new_grunt playerBottom gruntHeight).2.gruntRow : ℚ) *
            gruntHeight * ROW_SPACING
      else
        SCREEN_HEIGHT -
          (ROW_START +
            ((s.create_new_grunt playerBottom gruntHeight).2.gruntRow : ℚ) *
              gruntHeight * ROW_SPACING)) := by
  cases playerBottom <;>
    simp [StraferGruntGroup.create_new_grunt]

/-- **C4 counterexample** to the claim as stated: with the player in the
bottom half the spawn targets the *top* half (offset `150 < 450`, i.e. above
mid-screen for row 0 and height 64), yet the stored position is the
unmirrored offset `150`, not `SCREEN_HEIGHT - offset = 750` as the claim's
"mirrored exactly when the spawn targets the top half" would require. -/
theorem strafer_spawn_mirror_counterexample :
    ((StraferGruntGroup.init 2 3).create_new_grunt true 64).2.stoppingPointY =
      150 ∧
    (150 : ℚ) < SCREEN_HEIGHT / 2 ∧
    ((StraferGruntGroup.init 2 3).create_new_grunt true 64).2.stoppingPointY ≠
      SCREEN_HEIGHT - (ROW_START + (0 : ℚ) * 64 * ROW_SPACING) := by
  refine ⟨?_, by norm_num [SCREEN_HEIGHT], ?_⟩ <;>
    norm_num [StraferGruntGroup.create_new_grunt, StraferGruntGroup.init,
      ROW_START, ROW_SPACING, SCREEN_HEIGHT]

/-! ## Player/enemy collision resolver (`src/game/sprites/player.py`) -/

/-- What `Player.get_enemy_collision_vector` observes about one tracked
enemy: whether it is dead, and the `pygame.sprite.collide_mask` result
against the player (`none` when the masks no longer intersect, otherwise the
intersection point relative to the player's bounding box). -/
structure TrackedEnemy where
  is_dead : Bool
  collidePoint : Option (Nat × Nat)
  deriving DecidableEq

/-- The four blocked-movement flags `[top, bottom, left, right]` (`1` means
blocked, matching the Python list of ints indexed 0..3). -/
structure CollisionVector where
  top : Nat
  bottom : Nat
  left : Nat
  right : Nat
  deriving DecidableEq

/-- The all-zero collision vector `[0, 0, 0, 0]`: no direction blocked. -/
def CollisionVector.zero : CollisionVector :=
  { top := 0, bottom := 0, left := 0, right := 0 }

/-- `threshold = int(self.mask_size[0] * 0.45)` — 45% of the player mask's
width, truncated to an integer. -/
def collisionThreshold (maskWidth : Nat) : Nat :=
  maskWidth * 45 / 100

/-- The flag updates performed for one live, still-colliding enemy with
intersection point `p`: top when `vertical < threshold`, bottom when
`vertical > mask_height - threshold`, left when `horizontal < threshold`,
right when `horizontal > mask_width - threshold`. -/
def applyCollidePoint (maskWidth maskHeight : Nat) (p : Nat × Nat)
    (v : CollisionVector) : CollisionVector :=
  let threshold := collisionThreshold maskWidth
  let v1 := if p.2 < threshold then { v with top := 1 } else v
  let v2 := if (p.2 : Int) > (maskHeight : Int) - (threshold : Int) then
    { v1 with bottom := 1 } else v1
  let v3 := if p.1 < threshold then { v2 with left := 1 } else v2
  if (p.1 : Int) > (maskWidth : Int) - (threshold : Int) then
    { v3 with right := 1 } else v3

/-- `Player.get_enemy_collision_vector`: walk the tracked-overlap set,
dropping enemies that are dead or whose masks no longer intersect, OR-ing
the directional flags of the remaining ones, and returning the all-zero
vector when the tracked set ends up empty.  Returns the surviving tracked
set together with the vector. -/
def get_enemy_collision_vector (maskWidth maskHeight : Nat)
    (overlapping_enemies : List TrackedEnemy) :
    List TrackedEnemy × CollisionVector :=
  let res := overlapping_enemies.foldl
    (fun (acc : List TrackedEnemy × CollisionVector) (e : TrackedEnemy) =>
      match e.collidePoint, e.is_dead with
      | some p, false =>
          (acc.1 ++ [e], applyCollidePoint maskWidth maskHeight p acc.2)
      | _, _ => acc)
    ([], CollisionVector.zero)
  if res.1.length ≤ 0 then (res.1, CollisionVector.zero) else res

/-- `Player.update_enemies_collided`: register an enemy in the
tracked-overlap set when the "enemy entered range" event fires (a no-op when
it is already tracked). -/
def update_enemies_collided (overlapping_enemies : List TrackedEnemy)
    (enemy : TrackedEnemy) : List TrackedEnemy :=
  if enemy ∈ overlapping_enemies then overlapping_enemies
  else overlapping_enemies ++ [enemy]

/-- The truncated 45% threshold never exceeds half the mask width, so the
left and right flags can never both fire for one intersection point. -/
theorem two_mul_collisionThreshold_le (maskWidth : Nat) :
    2 * collisionThreshold maskWidth ≤ maskWidth := by
  simp only [collisionThreshold]
  omega

/-- **C2**: for a player whose tracked-overlap set holds one live enemy
whose mask-intersection point lies within 45% of the player box's extent
from the left edge, the collision vector blocks left, never blocks right,
and blocks top/bottom exactly when the point is also within the respective
vertical threshold (the corner case). -/
theorem collision_left_edge_blocks_left (maskWidth maskHeight x y : Nat)
    (hx : x < collisionThreshold maskWidth) :
    (get_enemy_collision_vector maskWidth maskHeight
      [{ is_dead := false, collidePoint := some (x, y) }]).2 =
      { top := if y < collisionThreshold maskWidth then 1 else 0,
        bottom := if (y : Int) > (maskHeight : Int) -
          (collisionThreshold maskWidth : Int) then 1 else 0,
        left := 1,
        right := 0 } := by
  have hthr := two_mul_collisionThreshold_le maskWidth
  have hxr : ¬ ((x : Int) > (maskWidth : Int) -
      (collisionThreshold maskWidth : Int)) := by
    push_neg
    omega
  by_cases hy1 : y < collisionThreshold maskWidth <;>
    by_cases hy2 : (y : Int) > (maskHeight : Int) -
      (collisionThreshold maskWidth : Int) <;>
    simp [get_enemy_collision_vector, applyCollidePoint, CollisionVector.zero,
      hx, hxr, hy1, hy2]

/-- Witness for **C2**: the spec's worked example — a 100×100 player box
with intersection point `(10, 50)` yields `[0, 0, 1, 0]`: left blocked,
top/bottom/right unblocked. -/
theorem collision_left_edge_blocks_left_witness :
    (get_enemy_collision_vector 100 100
      [{ is_dead := false, collidePoint := some (10, 50) }]).2 =
      { top := 0, bottom := 0, left := 1, right := 0 } :=
  (collision_left_edge_blocks_left 100 100 10 50 (by decide)).trans (by decide)

/-- **C7**: whenever the tracked-overlap set is empty at the end of the
collision check, the returned vector blocks no direction — untracked
enemies are never consulted (`get_enemy_collision_vector` reads only
`overlapping_enemies`), and an enemy can only enter that set through the
separate `update_enemies_collided` registration event. -/
theorem empty_tracked_set_blocks_nothing (maskWidth maskHeight : Nat)
    (tracked : List TrackedEnemy) (enemy : TrackedEnemy)
    (hEmpty : (get_enemy_collision_vector maskWidth maskHeight tracked).1 = []) :
    (get_enemy_collision_vector maskWidth maskHeight tracked).2 =
      CollisionVector.zero ∧
    enemy ∈ update_enemies_collided tracked enemy := by
  constructor
  · simp only [get_enemy_collision_vector] at hEmpty ⊢
    split_ifs at hEmpty ⊢ with hc
    · rfl
    · exfalso
      rw [hEmpty] at hc
      simp at hc
  · unfold update_enemies_collided
    split_ifs with hmem
    · exact hmem
    · simp

/-- Witness for **C7**: a dead enemy that still overlaps the player is
dropped from the tracked set, leaving it empty, and the returned vector
blocks nothing; registration makes an enemy a member of the tracked set. -/
theorem empty_tracked_set_blocks_nothing_witness :
    (get_enemy_collision_vector 100 100
      [{ is_dead := true, collidePoint := some (10, 50) }]).2 =
      CollisionVector.zero ∧
    ({ is_dead := false, collidePoint := some (0, 0) } : TrackedEnemy) ∈
      update_enemies_collided
        [{ is_dead := true, collidePoint := some (10, 50) }]
        { is_dead := false, collidePoint := some (0, 0) } :=
  empty_tracked_set_blocks_nothing 100 100
    [{ is_dead := true, collidePoint := some (10, 50) }]
    { is_dead := false, collidePoint := some (0, 0) } (by decide)

/-! ## Loading-screen handshake (`src/game/menus/loading.py`) -/

/-- `MAXIMUM_LOADTIME = 30`: threshold (in one-second poll ticks) after
which the loading screen switches its status message. -/
def MAXIMUM_LOADTIME : Nat := 30

/-- The states of the loading handshake.  `notStarted` is before
`open_max_application` launches the companion process; the two waiting
states are the two polling loops of `wait_for_max_to_load`; `ready` is
after both loops have exited. -/
inductive LoadState where
  | notStarted
  | waitingForOpen
  | waitingForLoad
  | ready
  deriving DecidableEq

/-- One polling tick of `wait_for_max_to_load`, reading the two latches set
by `max_opened_handler` (`MAX_OPEN`) and `max_loaded_handler`
(`MAX_FULLY_LOADED`): the first loop runs while `MAX_OPEN` is false, the
second while `MAX_FULLY_LOADED` is false; when `MAX_OPEN` is already set the
first loop is skipped in the same tick. -/
def loadStep (maxOpen maxFullyLoaded : Bool) : LoadState → LoadState
  | .notStarted => .notStarted
  | .waitingForOpen =>
      if maxOpen then (if maxFullyLoaded then .ready else .waitingForLoad)
      else .waitingForOpen
  | .waitingForLoad => if maxFullyLoaded then .ready else .waitingForLoad
  | .ready => .ready

/-- Launching the companion process (`open_max_application`) moves the
handshake out of `notStarted` into the first polling loop. -/
def launchApp : LoadState → LoadState
  | .notStarted => .waitingForOpen
  | s => s

/-- The handshake state during poll tick `t` (the loop iteration whose
`elapsed_load_time` counter equals `t`), given the tick-indexed values of
the two readiness latches. -/
def stateAt (openSig loadSig : Nat → Bool) : Nat → LoadState
  | 0 => loadStep (openSig 0) (loadSig 0) (launchApp .notStarted)
  | t + 1 => loadStep (openSig (t + 1)) (loadSig (t + 1)) (stateAt openSig loadSig t)

/-- `BEYOND_LOADTIME_STR` is displayed during poll tick `t` iff the first
loop is still running (`MAX_OPEN` is false at the tick's check) and the
percent branch `elapsed_load_time < MAXIMUM_LOADTIME` fails, i.e.
`t ≥ MAXIMUM_LOADTIME`. -/
def beyondLoadtimeShown (openSig : Nat → Bool) (t : Nat) : Bool :=
  !openSig t && decide (MAXIMUM_LOADTIME ≤ t)

/-- A readiness latch: once an OSC signal sets it, it stays set
(`max_opened_handler` / `max_loaded_handler` only ever assign `True`). -/
def latchedSignal (sig : Nat → Bool) : Prop :=
  ∀ s t, s ≤ t → sig s = true → sig t = true

/-- The "opened" latch of the spec's scenario: set from tick 5 onwards. -/
def openSigAt5 : Nat → Bool := fun t => decide (5 ≤ t)

/-- The "fully loaded" latch of the spec's scenario: set from tick 40 on. -/
def loadSigAt40 : Nat → Bool := fun t => decide (40 ≤ t)

/-- Progress rank of a handshake state, used to state that the state
machine never reverts. -/
def loadRank : LoadState → Nat
  | .notStarted => 0
  | .waitingForOpen => 1
  | .waitingForLoad => 2
  | .ready => 3

theorem loadRank_le_loadStep (o l : Bool) (s : LoadState) :
    loadRank s ≤ loadRank (loadStep o l s) := by
  cases s <;> cases o <;> cases l <;> simp [loadStep, loadRank]

theorem stateAt_waitingForOpen_of_not_open {openSig loadSig : Nat → Bool}
    (hlatch : latchedSignal openSig) {t : Nat} (ht : openSig t = false) :
    stateAt openSig loadSig t = .waitingForOpen := by
  induction t with
  | zero => simp [stateAt, launchApp, loadStep, ht]
  | succ n ih =>
      have hn : openSig n = false := by
        cases h : openSig n
        · rfl
        · have := hlatch n (n + 1) (Nat.le_succ n) h
          rw [ht] at this
          simp at this
      simp [stateAt, ih hn, loadStep, ht]

theorem loadStep_true_ne_waitingForOpen (l : Bool) (s : LoadState) :
    loadStep true l s ≠ .waitingForOpen := by
  cases s <;> cases l <;> simp [loadStep]

theorem not_open_of_stateAt_waitingForOpen {openSig loadSig : Nat → Bool}
    {t : Nat} (h : stateAt openSig loadSig t = .waitingForOpen) :
    openSig t = false := by
  cases t with
  | zero =>
      cases ho : openSig 0
      · rfl
      · exfalso
        simp only [stateAt, ho] at h
        exact loadStep_true_ne_waitingForOpen _ _ h
  | succ n =>
      cases ho : openSig (n + 1)
      · rfl
      · exfalso
        simp only [stateAt, ho] at h
        exact loadStep_true_ne_waitingForOpen _ _ h

theorem stateAt_scenario (t : Nat) :
    stateAt openSigAt5 loadSigAt40 t =
      (if t < 5 then .waitingForOpen else if t < 40 then .waitingForLoad
       else .ready) := by
  induction t with
  | zero => decide
  | succ n ih =>
      simp only [stateAt, ih, openSigAt5, loadSigAt40]
      split_ifs <;> simp_all [loadStep] <;> omega

/-- **C3** (amended): in the loading handshake with the "opened" latch set
at tick 5 and the "fully loaded" latch set at tick 40, the states traverse
`NOT_STARTED → WAITING_FOR_OPEN` (tick 0) `→ WAITING_FOR_LOAD` (tick 5)
`→ READY` (tick 40) and never revert; the "taking longer than usual" text is
shown exactly when the elapsed tick count has *reached* the 30-tick
threshold (`t ≥ 30`, not `t > 30`) while still in `WAITING_FOR_OPEN`; and
when the "opened" signal never arrives the handshake waits in
`WAITING_FOR_OPEN` forever — there is no automatic timeout abort. -/
theorem loading_handshake_traversal (openSig loadSig : Nat → Bool)
    (hlatch : latchedSignal openSig) :
    (∀ t, stateAt openSigAt5 loadSigAt40 t =
      (if t < 5 then .waitingForOpen else if t < 40 then .waitingForLoad
       else .ready)) ∧
    launchApp .notStarted = .waitingForOpen ∧
    (∀ t, beyondLoadtimeShown openSig t = true ↔
      (MAXIMUM_LOADTIME ≤ t ∧ stateAt openSig loadSig t = .waitingForOpen)) ∧
    (∀ t, loadRank (stateAt openSig loadSig t) ≤
      loadRank (stateAt openSig loadSig (t + 1))) ∧
    (∀ t, stateAt (fun _ => false) loadSig t = .waitingForOpen) := by
  refine ⟨stateAt_scenario, rfl, ?_, ?_, ?_⟩
  · intro t
    constructor
    · intro hb
      simp only [beyondLoadtimeShown, Bool.and_eq_true, Bool.not_eq_true',
        decide_eq_true_eq] at hb
      exact ⟨hb.2, stateAt_waitingForOpen_of_not_open hlatch hb.1⟩
    · rintro ⟨h30, hstate⟩
      have hopen := not_open_of_stateAt_waitingForOpen hstate
      simp [beyondLoadtimeShown, hopen, h30]
  · intro t
    simp only [stateAt]
    exact loadRank_le_loadStep _ _ _
  · intro t
    exact stateAt_waitingForOpen_of_not_open
      (fun s t' _ hs => by simp at hs) rfl

/-- **C3 counterexample** to the claim as stated: when the "opened" signal
has not yet arrived, at tick 30 the handshake is still in
`WAITING_FOR_OPEN` and the "taking longer than usual" text *is* shown, yet
the elapsed tick count does not exceed 30 — the code switches the message
at `elapsed >= MAXIMUM_LOADTIME`, not strictly beyond it. -/
theorem loading_beyond_threshold_counterexample :
    beyondLoadtimeShown (fun _ => false) 30 = true ∧
    stateAt (fun _ => false) (fun _ => false) 30 = .waitingForOpen ∧
    ¬(30 > 30) := by
  refine ⟨by decide, by decide, by omega⟩

/-- Witness for **C3**: the spec's scenario evaluated at the three
transition ticks, and the status message absent at tick 31 (the handshake
has already left `WAITING_FOR_OPEN`). -/
theorem loading_handshake_traversal_witness :
    stateAt openSigAt5 loadSigAt40 0 = .waitingForOpen ∧
    stateAt openSigAt5 loadSigAt40 5 = .waitingForLoad ∧
    stateAt openSigAt5 loadSigAt40 40 = .ready ∧
    beyondLoadtimeShown openSigAt5 31 = false := by
  have hlatch : latchedSignal openSigAt5 := by
    intro s t hst hs
    simp only [openSigAt5, decide_eq_true_eq] at hs ⊢
    omega
  have h := loading_handshake_traversal openSigAt5 loadSigAt40 hlatch
  refine ⟨?_, ?_, ?_, ?_⟩
  · rw [h.1 0]
    decide
  · rw [h.1 5]
    decide
  · rw [h.1 40]
    decide
  · have hst : stateAt openSigAt5 loadSigAt40 31 = .waitingForLoad := by
      rw [h.1 31]
      decide
    cases hb : beyondLoadtimeShown openSigAt5 31
    · rfl
    · exfalso
      have hc := (h.2.2.1 31).mp hb
      rw [hst] at hc
      exact absurd hc.2 (by decide)

/-! ## Projectiles (`src/game/sprites/projectiles.py`) -/

/-- A `pygame.Rect` as used by projectiles, with exact real coordinates
(`left`/`top` corner plus size; `right`/`bottom` derived). -/
structure PRect where
  left : ℝ
  top : ℝ
  width : ℝ
  height : ℝ

/-- `rect.right = rect.left + rect.width`. -/
def PRect.right (r : PRect) : ℝ := r.left + r.width

/-- `rect.bottom = rect.top + rect.height`. -/
def PRect.bottom (r : PRect) : ℝ := r.top + r.height

/-- `rect.move_ip(dx, dy)`: translate the rectangle in place. -/
def PRect.move_ip (r : PRect) (dx dy : ℝ) : PRect :=
  { r with left := r.left + dx, top := r.top + dy }

/-- The `out_of_bounds` test of `Projectile.update`: the bounding box lies
fully outside the playfield on some side. -/
def PRect.out_of_bounds (r game_screen_rect : PRect) : Prop :=
  r.left > game_screen_rect.right ∨ r.right < game_screen_rect.left ∨
  r.top > game_screen_rect.bottom ∨ r.bottom < game_screen_rect.top

/-- `math.radians`: degrees to radians. -/
noncomputable def radians (degrees : ℝ) : ℝ := degrees * Real.pi / 180

/-- The runtime state of a `Projectile` that its `update` method touches:
bounding rect, damage, speed, fixed movement angle (degrees), and whether it
is still alive (`kill()` clears this flag and removes it from all owning
groups). -/
structure Projectile where
  rect : PRect
  damage : Int
  movement_speed : ℝ
  movement_angle : ℝ
  alive : Bool

open scoped Classical

/-- `Projectile.update`: advance the rect by
`(speed*cos(radians(angle)), -1*speed*sin(radians(angle)))` (screen Y is
inverted), then `kill()` the projectile iff the moved box is fully outside
the playfield bounds on some side. -/
noncomputable def Projectile.update (p : Projectile)
    (game_screen_rect : PRect) : Projectile :=
  let x := p.movement_speed * Real.cos (radians p.movement_angle)
  let y := -1 * p.movement_speed * Real.sin (radians p.movement_angle)
  let moved := p.rect.move_ip x y
  if PRect.out_of_bounds moved game_screen_rect then
    { p with rect := moved, alive := false }
  else
    { p with rect := moved }

/-- **C6**: each per-frame projectile update advances the position by
`(speed·cos θ, -speed·sin θ)` with θ the movement angle (screen Y inverted),
and the projectile is removed after the move iff its bounding box lies fully
outside the playfield bounds on some side. -/
theorem projectile_update_advances_then_culls (p : Projectile)
    (game_screen_rect : PRect) (halive : p.alive = true) :
    (p.update game_screen_rect).rect =
      p.rect.move_ip (p.movement_speed * Real.cos (radians p.movement_angle))
        (-(p.movement_speed * Real.sin (radians p.movement_angle))) ∧
    ((p.update game_screen_rect).alive = false ↔
      PRect.out_of_bounds
        (p.rect.move_ip
          (p.movement_speed * Real.cos (radians p.movement_angle))
          (-(p.movement_speed * Real.sin (radians p.movement_angle))))
        game_screen_rect) := by
  have harg : (-1 : ℝ) * p.movement_speed * Real.sin (radians p.movement_angle) =
      -(p.movement_speed * Real.sin (radians p.movement_angle)) := by ring
  simp only [Projectile.update]
  rw [harg]
  split_ifs with hoob
  · exact ⟨rfl, by simp [hoob]⟩
  · refine ⟨rfl, ?_, fun hc => absurd hc hoob⟩
    intro hfalse
    simp only [halive] at hfalse
    cases hfalse

/-- Witness for **C6**: a motionless projectile whose box already sits to
the right of the playfield is culled by its next update. -/
theorem projectile_update_advances_then_culls_witness :
    (Projectile.update
      { rect := { left := 100, top := 0, width := 10, height := 10 },
        damage := 1, movement_speed := 0, movement_angle := 0, alive := true }
      { left := 0, top := 0, width := 50, height := 50 }).alive = false := by
  have h := projectile_update_advances_then_culls
    { rect := { left := 100, top := 0, width := 10, height := 10 },
      damage := 1, movement_speed := 0, movement_angle := 0, alive := true }
    { left := 0, top := 0, width := 50, height := 50 } rfl
  apply h.2.mpr
  left
  norm_num [PRect.move_ip, PRect.right]

/-- The construction-time failures of `Projectile.__init__`:
`colorNotAvailable` is the `AssetLoadError` raised when the class-level
`COLOR` is set but not in `AVAILABLE_COLORS`; `colorListMissing` is the
`TypeError` of testing membership in a `None` color list; and
`variantIndexOutOfRange` is the `IndexError` of indexing
`AVAILABLE_VARIANTS` with an invalid variant number.  Any error aborts the
construction, so no projectile object is created. -/
inductive ProjectileInitError where
  | colorNotAvailable
  | colorListMissing
  | variantIndexOutOfRange
  deriving DecidableEq

/-- The class-level configuration a `Projectile` subclass overrides. -/
structure ProjectileClassConfig where
  COLOR : Option String
  AVAILABLE_COLORS : Option (List String)
  AVAILABLE_VARIANTS : Option (List String)
  DEFAULT_DAMAGE : Int
  DEFAULT_SPEED : Int
  DEFAULT_ANGLE : Int
  deriving DecidableEq

/-- The attributes `Projectile.__init__` computes (geometry and image
loading are out of scope, per the spec's purpose section). -/
structure ProjectileData where
  variant : String
  variant_number : Nat
  damage : Int
  movement_speed : Int
  movement_angle : Int
  deriving DecidableEq

/-- The variant-selection and attribute-defaulting tail of
`Projectile.__init__`, reached only after the color check passed. -/
def projectile_init_variant (cfg : ProjectileClassConfig)
    (damage speed movement_angle : Option Int) (variant_number : Nat) :
    Except ProjectileInitError ProjectileData :=
  match cfg.AVAILABLE_VARIANTS with
  | some variants =>
      match variants.get? variant_number with
      | some v =>
          .ok { variant := v, variant_number := variant_number,
                damage := damage.getD cfg.DEFAULT_DAMAGE,
                movement_speed := speed.getD cfg.DEFAULT_SPEED,
                movement_angle := movement_angle.getD cfg.DEFAULT_ANGLE }
      | none => .error .variantIndexOutOfRange
  | none =>
      .ok { variant := "", variant_number := variant_number,
            damage := damage.getD cfg.DEFAULT_DAMAGE,
            movement_speed := speed.getD cfg.DEFAULT_SPEED,
            movement_angle := movement_angle.getD cfg.DEFAULT_ANGLE }

/-- `Projectile.__init__`: when the class-level `COLOR` is set it must be a
member of `AVAILABLE_COLORS`, otherwise construction raises before any
object is created; then variants and the damage/speed/angle defaults are
resolved. -/
def projectile_init (cfg : ProjectileClassConfig)
    (damage speed movement_angle : Option Int) (variant_number : Nat) :
    Except ProjectileInitError ProjectileData :=
  match cfg.COLOR with
  | some c =>
      match cfg.AVAILABLE_COLORS with
      | some colors =>
          if c ∈ colors then
            projectile_init_variant cfg damage speed movement_angle
              variant_number
          else .error .colorNotAvailable
      | none => .error .colorListMissing
  | none => projectile_init_variant cfg damage speed movement_angle
      variant_number

theorem projectile_init_variant_ne_color_error (cfg : ProjectileClassConfig)
    (damage speed movement_angle : Option Int) (variant_number : Nat) :
    projectile_init_variant cfg damage speed movement_angle variant_number ≠
      .error .colorNotAvailable := by
  unfold projectile_init_variant
  rcases cfg.AVAILABLE_VARIANTS with _ | variants
  · simp
  · rcases hv : variants[variant_number]? with _ | v <;> simp [hv]

/-- **C9**: constructing a projectile fails with the color configuration
error (`AssetLoadError`) — creating no object — precisely when the
class-level `COLOR` is set and is not a member of its `AVAILABLE_COLORS`;
construction with a `COLOR` in the allowed set, or with no `COLOR`, never
fails for this reason. -/
theorem projectile_color_config_error (cfg : ProjectileClassConfig)
    (damage speed movement_angle : Option Int) (variant_number : Nat) :
    projectile_init cfg damage speed movement_angle variant_number =
      .error .colorNotAvailable ↔
    (∃ c colors, cfg.COLOR = some c ∧ cfg.AVAILABLE_COLORS = some colors ∧
      c ∉ colors) := by
  rcases hC : cfg.COLOR with _ | c
  · simp only [projectile_init, hC]
    constructor
    · intro h
      exact absurd h (projectile_init_variant_ne_color_error _ _ _ _ _)
    · rintro ⟨c, colors, hc, -, -⟩
      cases hc
  · rcases hA : cfg.AVAILABLE_COLORS with _ | colors
    · simp only [projectile_init, hC, hA]
      constructor
      · intro h
        cases h
      · rintro ⟨c', colors', -, hcolors, -⟩
        cases hcolors
    · simp only [projectile_init, hC, hA]
      by_cases hmem : c ∈ colors
      · rw [if_pos hmem]
        constructor
        · intro h
          exact absurd h (projectile_init_variant_ne_color_error _ _ _ _ _)
        · rintro ⟨c', colors', hc', hcolors', hnot⟩
          cases hc'
          cases hcolors'
          exact absurd hmem hnot
      · rw [if_neg hmem]
        constructor
        · intro _
          exact ⟨c, colors, rfl, rfl, hmem⟩
        · intro _
          rfl

/-! ## Weapon firing cadence (modelled from the spec) -/

/-- Modelled from the spec: the `Weapon` class lives in `attacks.py`, which
is not among the provided sources (only its callers in `groups.py` and
`player.py` are).  Spec §4.2 and §3: a weapon is a projectile factory with
firing-cadence state (time of last shot, minimum interval `rate_of_fire`),
an ammo counter (`none` = unlimited, matching `Weapon.INFINITE_AMMO`), and
per-barrel center offsets (`center_deltas`, one projectile per offset per
trigger). -/
structure Weapon where
  rate_of_fire : Nat
  ammo : Option Nat
  last_shot_time : Nat
  center_deltas : List (Int × Int)
  deriving DecidableEq

/-- Modelled from the spec: a weapon may fire only if the elapsed time since
the last shot is at least `rate_of_fire` and, for finite-ammo weapons, the
remaining ammo is positive. -/
def Weapon.can_fire (w : Weapon) (now : Nat) : Bool :=
  decide (w.rate_of_fire ≤ now - w.last_shot_time) &&
    (match w.ammo with
     | none => true
     | some n => decide (0 < n))

/-- Modelled from the spec: `Weapon.attack` — when the cadence and ammo gate
passes, record the shot time, decrement finite ammo (no-op for infinite
ammo) and spawn one projectile per center delta; otherwise do nothing.
Returns the updated weapon and the number of projectiles spawned. -/
def Weapon.attack (w : Weapon) (now : Nat) : Weapon × Nat :=
  if w.can_fire now then
    ({ w with last_shot_time := now, ammo := w.ammo.map (· - 1) },
     w.center_deltas.length)
  else (w, 0)

/-- A sequence of attack attempts at the given times, accumulating the total
number of projectiles spawned. -/
def Weapon.attack_seq (w : Weapon) (times : List Nat) : Weapon × Nat :=
  times.foldl
    (fun acc t =>
      let fired := Weapon.attack acc.1 t
      (fired.1, acc.2 + fired.2)) (w, 0)

/-- **C8** (spec-modelled): an attack spawns projectiles only if the elapsed
time since the last shot is at least the rate-of-fire interval and, for
finite-ammo weapons, remaining ammo is positive; hence a ready single-barrel
weapon attacked at times `t`, `t + R/2` and `t + R` spawns exactly 2
projectiles (at `t` and `t + R`), not 3. -/
theorem weapon_rate_of_fire_gating (w : Weapon) (t : Nat)
    (hR : 0 < w.rate_of_fire)
    (hready : w.last_shot_time + w.rate_of_fire ≤ t)
    (hbarrel : w.center_deltas.length = 1)
    (hammo : w.ammo = none ∨ ∃ n, w.ammo = some n ∧ 2 ≤ n) :
    (∀ (w' : Weapon) (now : Nat), 0 < (w'.attack now).2 →
      w'.rate_of_fire ≤ now - w'.last_shot_time ∧
      ∀ n, w'.ammo = some n → 0 < n) ∧
    (w.attack_seq [t, t + w.rate_of_fire / 2, t + w.rate_of_fire]).2 = 2 := by
  constructor
  · intro w' now hfired
    unfold Weapon.attack at hfired
    split_ifs at hfired with hcf
    · simp only [Weapon.can_fire, Bool.and_eq_true, decide_eq_true_eq] at hcf
      refine ⟨hcf.1, ?_⟩
      intro n hn
      have := hcf.2
      rw [hn] at this
      simpa using this
    · simp at hfired
  · have hcf1 : w.can_fire t = true := by
      simp only [Weapon.can_fire, Bool.and_eq_true, decide_eq_true_eq]
      refine ⟨by omega, ?_⟩
      rcases hammo with h | ⟨n, hn, h2⟩
      · rw [h]
      · rw [hn]
        simp
        omega
    set w1 : Weapon :=
      { w with last_shot_time := t, ammo := w.ammo.map (· - 1) } with hw1
    have ha1 : w.attack t = (w1, 1) := by
      rw [Weapon.attack, if_pos hcf1, hbarrel]
    have hcf2 : w1.can_fire (t + w.rate_of_fire / 2) = false := by
      rw [hw1]
      simp only [Weapon.can_fire]
      have hd : decide (w.rate_of_fire ≤ t + w.rate_of_fire / 2 - t) =
          false := by
        simp only [decide_eq_false_iff_not]
        omega
      rw [hd, Bool.false_and]
    have ha2 : w1.attack (t + w.rate_of_fire / 2) = (w1, 0) := by
      rw [Weapon.attack, if_neg (by simp [hcf2])]
    have hcf3 : w1.can_fire (t + w.rate_of_fire) = true := by
      rw [hw1]
      simp only [Weapon.can_fire, Bool.and_eq_true, decide_eq_true_eq]
      constructor
      · omega
      · rcases hammo with h | ⟨n, hn, h2⟩
        · rw [h]
          rfl
        · rw [hn]
          simp
          omega
    have ha3 : w1.attack (t + w.rate_of_fire) =
        ({ w1 with
            last_shot_time := t + w.rate_of_fire
            ammo := w1.ammo.map (· - 1) }, 1) := by
      rw [Weapon.attack, if_pos hcf3]
      simp [hw1, hbarrel]
    simp [Weapon.attack_seq, ha1, ha2, ha3]

/-- Witness for **C8**: a single-barrel weapon with interval 100 and 5 shots
of ammo, last fired at time 0, attacked at times 100, 150 and 200 spawns
exactly 2 projectiles. -/
theorem weapon_rate_of_fire_gating_witness :
    (Weapon.attack_seq
      { rate_of_fire := 100, ammo := some 5, last_shot_time := 0,
        center_deltas := [(0, 0)] }
      [100, 100 + 100 / 2, 100 + 100]).2 = 2 :=
  (weapon_rate_of_fire_gating
    { rate_of_fire := 100, ammo := some 5, last_shot_time := 0,
      center_deltas := [(0, 0)] }
    100 (by decide) (by decide) (by decide)
    (Or.inr ⟨5, rfl, by decide⟩)).2

/-! ## Telemetry accumulators (`src/game/stats.py`) -/

/-- `AvgStat`: a running average with a sum and a count (both start at 0);
Python's float arithmetic is modelled exactly over `ℚ`. -/
structure AvgStat where
  sum : ℚ
  count : Nat
  deriving DecidableEq

/-- `AvgStat.__init__`: `sum = 0`, `count = 0`. -/
def AvgStat.initStat : AvgStat := { sum := 0, count := 0 }

/-- The `avg` property: `sum / count` when `count > 0`, else `0`. -/
def AvgStat.avg (s : AvgStat) : ℚ :=
  if 0 < s.count then s.sum / (s.count : ℚ) else 0

/-- `AvgStat.add`: accumulate one value. -/
def AvgStat.add (s : AvgStat) (val : ℚ) : AvgStat :=
  { sum := s.sum + val, count := s.count + 1 }

/-- **C10**: an `AvgStat` with no accumulated values (`count = 0`) reports
average `0` instead of dividing by zero; with `count > 0` it reports
`sum / count`. -/
theorem avgstat_avg_zero_safe (s : AvgStat) (val : ℚ) :
    (s.count = 0 → s.avg = 0) ∧
    (0 < s.count → s.avg = s.sum / (s.count : ℚ)) ∧
    AvgStat.initStat.avg = 0 ∧
    (s.add val).count = s.count + 1 ∧ (s.add val).sum = s.sum + val := by
  refine ⟨?_, ?_, rfl, rfl, rfl⟩
  · intro h
    simp [AvgStat.avg, h]
  · intro h
    simp [AvgStat.avg, h]

/-- Witness for **C10**: a fresh accumulator averages to `0`; after two
values `2` and `4` the average is `3`. -/
theorem avgstat_avg_zero_safe_witness :
    AvgStat.initStat.avg = 0 ∧
    ((AvgStat.initStat.add 2).add 4).avg = 3 := by
  constructor
  · exact (avgstat_avg_zero_safe AvgStat.initStat 0).1 rfl
  · have h := (avgstat_avg_zero_safe ((AvgStat.initStat.add 2).add 4) 0).2.1
      (by decide)
    rw [h]
    norm_num [AvgStat.initStat, AvgStat.add]
